import Mathlib

/-!
Shallow embedding of `src/playlist_downloader_prototype.py` (a PySide6 +
yt_dlp playlist downloader prototype) and verification of the spec's claims
about it.

Python floats are modelled as exact rationals (`ℚ`); where the outcome of a
claim hinges on IEEE-754 double-precision rounding (the global-percent
computation `int(100 * (done / total))`), the rounding of a real value to
the nearest binary64 double is modelled explicitly (`fpRound` below).
Python ints are `ℕ`/`ℤ`; Python strings are Lean `String`s (the program
only manipulates them at the ASCII level).
-/

set_option maxRecDepth 10000

namespace PlaylistDL

/-! ## Python-level numeric helpers

Exact rational arithmetic is written with `Rat.divInt` over numerators and
denominators rather than with `ℚ`'s `+ - * /`, because the latter are
`@[irreducible]` and do not evaluate; the `..._eq` bridge lemmas below
prove each helper equal to the corresponding field operation. -/

/-- The rational `n / 1`. -/
def intToQ (n : ℤ) : ℚ := Rat.divInt n 1

/-- The rational `n / 1` for a natural `n`. -/
def natToQ (n : ℕ) : ℚ := Rat.divInt (Int.ofNat n) 1

/-- Exact rational subtraction. -/
def qSub (a b : ℚ) : ℚ :=
  Rat.divInt (a.num * (b.den : ℤ) - b.num * (a.den : ℤ)) ((a.den * b.den : ℕ) : ℤ)

/-- Exact rational multiplication. -/
def qMul (a b : ℚ) : ℚ :=
  Rat.divInt (a.num * b.num) ((a.den * b.den : ℕ) : ℤ)

/-- Exact rational division (0 on a zero divisor, which never occurs at
the call sites below). -/
def qDiv (a b : ℚ) : ℚ :=
  Rat.divInt (a.num * (b.den : ℤ)) ((a.den : ℤ) * b.num)

/-- Python `int(x)` on a float: truncation toward zero.  (`Rat.floor` is
used rather than `Int.floor` so that the definition reduces in the
kernel.) -/
def pyTrunc (q : ℚ) : ℤ :=
  if q < 0 then -(-q).floor else q.floor

/-- `2 ^ z` as a rational, for an integer (possibly negative) exponent. -/
def zpow2 (z : ℤ) : ℚ :=
  if 0 ≤ z then intToQ (Int.ofNat (Nat.pow 2 z.toNat))
  else Rat.divInt 1 (Int.ofNat (Nat.pow 2 (-z).toNat))

/-- Round a rational to the nearest integer, ties to even (the rounding of
IEEE-754 and of Python `format`). -/
def rne (x : ℚ) : ℤ :=
  let f := x.floor
  let r := qSub x (intToQ f)
  if r < Rat.divInt 1 2 then f
  else if Rat.divInt 1 2 < r then f + 1
  else if f % 2 = 0 then f else f + 1

/-- Fuel-driven `⌊log₂⌋` on naturals (structural, hence reducible). -/
def log2F : ℕ → ℕ → ℕ
  | 0, _ => 0
  | fuel + 1, n => if 2 ≤ n then log2F fuel (n / 2) + 1 else 0

/-- `⌊log₂ n⌋` for a natural (`0` at `0`). -/
def log2N (n : ℕ) : ℕ := log2F n n

/-- `⌊log₂ q⌋` for a positive rational, computed from the numerator's and
denominator's `⌊log₂⌋` with a one-step correction. -/
def floorLog2Q (q : ℚ) : ℤ :=
  let L : ℤ := (log2N q.num.toNat : ℤ) - (log2N q.den : ℤ)
  if zpow2 L ≤ q then L else L - 1

/-- Round a rational to the nearest IEEE-754 binary64 double (53-bit
significand, round-to-nearest ties-to-even).  Subnormals and overflow are
out of range for the quantities this program computes and are not
modelled. -/
def fpRound (q : ℚ) : ℚ :=
  if q = 0 then 0
  else if 0 < q then
    let e := floorLog2Q q
    qMul (intToQ (rne (qMul q (zpow2 (52 - e))))) (zpow2 (e - 52))
  else
    let e := floorLog2Q (-q);
    -(qMul (intToQ (rne (qMul (-q) (zpow2 (52 - e))))) (zpow2 (e - 52)))

/-- IEEE-754 double division (correctly rounded). -/
def fpDiv (a b : ℚ) : ℚ := fpRound (qDiv a b)

/-- IEEE-754 double multiplication (correctly rounded). -/
def fpMul (a b : ℚ) : ℚ := fpRound (qMul a b)

/-- Python `f"{x:.0f}"`: round to the nearest integer (ties to even) and
print without a decimal point. -/
def fmtFixed0 (q : ℚ) : String := toString (rne q)

/-- Python `f"{x:.1f}"` for a nonnegative value: round to the nearest tenth
(ties to even) and print with exactly one digit after the point. -/
def fmtFixed1 (q : ℚ) : String :=
  let n := rne (qMul q (natToQ 10))
  toString (n / 10) ++ "." ++ toString (n % 10)

/-! ## `DownloadWorker._fmt_bytes` (source lines 188–199)

```python
def _fmt_bytes(self, b):
    try:
        b = float(b)
    except:
        return "?"
    if b < 1024:
        return f"{b:.0f}B"
    if b < 1024**2:
        return f"{b/1024:.1f}KB"
    if b < 1024**3:
        return f"{b/(1024**2):.1f}MB"
    return f"{b/(1024**3):.1f}GB"
```

The argument is always numeric in this program (a byte count or a speed),
so the `try: float(b)` conversion is the identity and the `"?"` branch is
unreachable; the input is modelled as the rational value of that float. -/

def fmt_bytes (b : ℚ) : String :=
  if b < 1024 then fmtFixed0 b ++ "B"
  else if b < 1048576 then fmtFixed1 (qDiv b 1024) ++ "KB"        -- 1024**2
  else if b < 1073741824 then fmtFixed1 (qDiv b 1048576) ++ "MB"  -- 1024**3
  else fmtFixed1 (qDiv b 1073741824) ++ "GB"

/-! ## The progress hook (source lines 134–167)

A yt_dlp progress-callback dictionary `d`, restricted to the keys the hook
reads.  A numeric field is either absent (key missing or value `None`),
present but such that `float(...)` raises, or present with a parsable
value; byte counts and speed are Python ints (`None`-able). -/

inductive PField where
  | absent : PField
  | unparsable : PField
  | val : ℚ → PField
deriving DecidableEq

structure HookDict where
  status : String
  /-- `d['percent']` (structured percent field). -/
  percent : PField
  /-- `d['_percent_str']` after `.strip().strip('%')`; `absent` models a
  missing key or a falsy (empty) string, `unparsable` a string rejected by
  `float(...)`, `val v` a string parsing to `v`. -/
  percentStr : PField
  downloaded_bytes : Option ℕ
  total_bytes : Option ℕ
  total_bytes_estimate : Option ℕ
  speed : Option ℕ
deriving DecidableEq

/-- Python truthiness on an optional int: `None` and `0` are falsy. -/
def optTruthy (o : Option ℕ) : Option ℕ :=
  match o with
  | none => none
  | some n => if n = 0 then none else some n

/-- The events the `Signals` object can carry (`update_progress`,
`update_status`, `finished_video`); `signals.X.emit(...)` is modelled as
appending the event to the emission list. -/
inductive Event where
  | progress (vid : String) (percent : ℚ) (downloaded : ℤ) (total : ℤ) (text : String)
  | statusMsg (vid : String) (msg : String)
  | finished (vid : String) (success : Bool) (msg : String)
deriving DecidableEq

/-- The hook's percent normalization:

```python
percent_float = None
try:
    if 'percent' in d and d['percent'] is not None:
        percent_float = float(d['percent'])
    else:
        percent_str = d.get('_percent_str')
        if percent_str:
            percent_float = float(percent_str.strip().strip('%'))
except Exception:
    percent_float = None
p_display = percent_float if percent_float is not None else 0.0
```
-/
def pDisplay (d : HookDict) : ℚ :=
  match d.percent with
  | .val v => v
  | .unparsable => 0
  | .absent =>
      match d.percentStr with
      | .val v => v
      | _ => 0

/-- `total = d.get('total_bytes') or d.get('total_bytes_estimate') or -1`. -/
def hookTotal (d : HookDict) : ℤ :=
  match (optTruthy d.total_bytes).orElse (fun _ => optTruthy d.total_bytes_estimate) with
  | some n => (n : ℤ)
  | none => -1

/-- The status text built for a `downloading` callback. -/
def hookStatusText (d : HookDict) : String :=
  let downloaded : ℚ := natToQ (d.downloaded_bytes.getD 0)
  let total := hookTotal d
  let speed : ℚ := natToQ (d.speed.getD 0)
  "Downloading " ++ fmtFixed1 (pDisplay d) ++ "% • " ++ fmt_bytes downloaded ++ " / "
    ++ (if total ≠ -1 then fmt_bytes (intToQ total) else "?") ++ " • " ++ fmt_bytes speed ++ "/s"

/-- `progress_hook(d)` (source lines 134–167): the list of events it emits
for one callback dictionary. -/
def progress_hook (vid : String) (d : HookDict) : List Event :=
  if d.status = "downloading" then
    let downloaded : ℤ := (d.downloaded_bytes.getD 0 : ℕ)
    let total := hookTotal d
    [.progress vid (pDisplay d) downloaded (if total ≠ 0 then total else -1) (hookStatusText d)]
  else if d.status = "finished" then
    [.progress vid 100 (d.downloaded_bytes.getD 0 : ℕ)
      (match optTruthy d.total_bytes with | some n => (n : ℤ) | none => -1)
      "Processing/merging"]
  else if d.status = "error" then
    [.statusMsg vid "Error"]
  else []

/-! ## `DownloadWorker.run` (source lines 133–186)

The external `ydl.download([url])` call is the collaborator: it invokes the
progress hook some number of times and then either returns or raises.  A
raised Python exception is modelled as a value carrying its textual
description `str(e)`; the constructor `yt_dlp.YoutubeDL(...)` may itself
raise (before `Status("Starting")` is emitted). -/

structure PyErr where
  /-- `str(e)`, the textual description of the exception. -/
  str : String
deriving DecidableEq

inductive DlOutcome where
  /-- `yt_dlp.YoutubeDL(ydl_opts)` raises: no hook runs, no Starting status. -/
  | ctorFail (e : PyErr)
  /-- `ydl.download` raises after delivering `hooks` callbacks. -/
  | dlFail (hooks : List HookDict) (e : PyErr)
  /-- `ydl.download` returns normally after delivering `hooks` callbacks. -/
  | success (hooks : List HookDict)

/-- The events `DownloadWorker.run` emits, as a function of the external
downloader's behaviour. -/
def workerRun (vid : String) (out : DlOutcome) : List Event :=
  match out with
  | .ctorFail e => [.finished vid false e.str]
  | .dlFail hooks e =>
      .statusMsg vid "Starting" :: (hooks.flatMap (progress_hook vid)
        ++ [.finished vid false e.str])
  | .success hooks =>
      .statusMsg vid "Starting" :: (hooks.flatMap (progress_hook vid)
        ++ [.finished vid true "Done"])

/-- Number of `finished_video` (Completed) events in an emission list. -/
def countFinished (evs : List Event) : ℕ :=
  evs.countP (fun ev => match ev with | .finished _ _ _ => true | _ => false)

/-- The percents of the `update_progress` events in an emission list. -/
def progressPercents (evs : List Event) : List ℚ :=
  evs.filterMap (fun ev => match ev with | .progress _ p _ _ _ => some p | _ => none)

/-! ## `MainWindow._quality_to_format` (source lines 431–440) -/

/-- Python `str.isdigit()` (over the ASCII strings this program handles):
nonempty and every character a decimal digit. -/
def pyIsDigit (s : String) : Bool :=
  !s.isEmpty && s.toList.all Char.isDigit

def quality_to_format (q : String) : String :=
  if q = "best" then "best"
  else if q = "bestvideo+bestaudio" then "bestvideo+bestaudio/best"
  else if q = "audio" then "bestaudio"
  else if pyIsDigit q then
    "bestvideo[height<=" ++ q ++ "]+bestaudio/best[height<=" ++ q ++ "]"
  else "best"

/-! ## `MainWindow._safe_filename` (source lines 442–444) -/

/-- Python `str.isspace()` characters relevant here (ASCII whitespace). -/
def pyIsSpace (c : Char) : Bool :=
  c = ' ' || c = '\t' || c = '\n' || c = '\x0d' || c = '\x0b' || c = '\x0c'

/-- Python `str.rstrip()`: drop trailing whitespace. -/
def pyRstrip (l : List Char) : List Char :=
  (l.reverse.dropWhile pyIsSpace).reverse

/-- `c.isalnum() or c in (" ", ".", "_", "-")` (ASCII scope). -/
def keepChar (c : Char) : Bool :=
  c.isAlphanum || c = ' ' || c = '.' || c = '_' || c = '-'

def safe_filename (s : String) : String :=
  ⟨pyRstrip (s.toList.filter keepChar)⟩

/-! ## The coordinator / presentation state (`MainWindow`, source lines 204–429)

Only the state the event handlers touch is modelled: the
`video_widgets` table (`vid ↦ widget`), the aggregate counters
`global_done` / `global_total`, the global progress bar and the console.
A `QProgressBar` clamps `setValue` to its range `[0, 100]`. -/

/-- One `VideoWidget`: its `video_id`, progress-bar value and status label. -/
structure Widget where
  video_id : String
  progressValue : ℕ
  statusText : String
deriving DecidableEq

/-- `QProgressBar.setValue` clamps to the configured range `0..100`. -/
def qtClamp (z : ℤ) : ℕ :=
  if z ≤ 0 then 0 else if 100 ≤ z then 100 else z.toNat

/-- `VideoWidget.set_progress` (source lines 105–115): the signal's percent
is a float (never `None` at this call site), `int(percent)` truncates, the
bar clamps; the status label is set to `status_text or ""`. -/
def setProgressW (percent : ℚ) (statusText : String) (w : Widget) : Widget :=
  { w with progressValue := qtClamp (pyTrunc percent), statusText := statusText }

def setStatusTextW (text : String) (w : Widget) : Widget :=
  { w with statusText := text }

abbrev WidgetTable := List (String × Widget)

/-- `self.video_widgets.get(video_id)` (dict lookup by key). -/
def lookupTable (t : WidgetTable) (vid : String) : Option Widget :=
  (t.find? (fun e => e.1 = vid)).map (·.2)

/-- The `except:` fallback scan: the first stored widget whose `video_id`
attribute equals `video_id`. -/
def scanTable (t : WidgetTable) (vid : String) : Option Widget :=
  (t.find? (fun e => e.2.video_id = vid)).map (·.2)

/-- Apply `f` to the entry stored under key `vid` (dict-lookup hit). -/
def updateByKey : WidgetTable → String → (Widget → Widget) → WidgetTable
  | [], _, _ => []
  | e :: rest, vid, f =>
      if e.1 = vid then (e.1, f e.2) :: rest else e :: updateByKey rest vid f

/-- Apply `f` to the first entry whose widget has `video_id = vid`
(fallback-scan hit). -/
def updateByWidgetId : WidgetTable → String → (Widget → Widget) → WidgetTable
  | [], _, _ => []
  | e :: rest, vid, f =>
      if e.2.video_id = vid then (e.1, f e.2) :: rest
      else e :: updateByWidgetId rest vid f

/-- Locate the widget as the handlers do: dict `get` first, fallback scan
on the `TypeError` from unpacking `None`. -/
def updateWidget (t : WidgetTable) (vid : String) (f : Widget → Widget) : WidgetTable :=
  if (lookupTable t vid).isSome then updateByKey t vid f
  else if (scanTable t vid).isSome then updateByWidgetId t vid f
  else t

/-- `vid` is not registered in the per-item table: no entry is stored
under that key and no stored widget carries that `video_id`. -/
def notRegistered (t : WidgetTable) (vid : String) : Prop :=
  ∀ e ∈ t, e.1 ≠ vid ∧ e.2.video_id ≠ vid

structure UIState where
  table : WidgetTable
  global_total : ℕ
  global_done : ℕ
  /-- the global `QProgressBar`'s value. -/
  globalPct : ℕ
  /-- the status console, one appended line per entry. -/
  console : List String
deriving DecidableEq

/-- `MainWindow.on_update_progress` (source lines 392–402); the byte
arguments are passed through to `set_progress`, which ignores them. -/
def on_update_progress (ui : UIState) (vid : String) (percent : ℚ)
    (_downloaded _total : ℤ) (statusText : String) : UIState :=
  { ui with table := updateWidget ui.table vid (setProgressW percent statusText) }

/-- `MainWindow.on_update_status` (source lines 404–407): plain `in` test,
no fallback scan. -/
def on_update_status (ui : UIState) (vid : String) (statusText : String) : UIState :=
  if (lookupTable ui.table vid).isSome then
    { ui with table := updateByKey ui.table vid (setStatusTextW statusText) }
  else ui

/-- The widget update `on_finished_video` performs when it finds the widget. -/
def finishWidget (success : Bool) (w : Widget) : Widget :=
  if success then { w with statusText := "Done", progressValue := 100 }
  else { w with statusText := "Failed" }

/-- The global percent `int(100 * (done / total))`, computed — as in
CPython — in IEEE-754 double precision, then clamped by the progress bar. -/
def globalPercent (done total : ℕ) : ℕ :=
  qtClamp (pyTrunc (fpMul (natToQ 100) (fpDiv (natToQ done) (natToQ total))))

/-- `MainWindow.on_finished_video` (source lines 409–429). -/
def on_finished_video (ui : UIState) (vid : String) (success : Bool)
    (message : String) : UIState :=
  let done := ui.global_done + 1
  let pct := if ui.global_total ≠ 0 then globalPercent done ui.global_total
             else ui.globalPct
  { ui with
    global_done := done
    globalPct := pct
    table := updateWidget ui.table vid (finishWidget success)
    console := ui.console ++
      ["[" ++ vid ++ "] " ++ (if success then "OK" else "FAILED") ++ " — " ++ message] }

/-- The aggregate state right after `Queueing N selected videos...`
(source lines 368–372): `global_total := total`, `global_done := 0`,
global bar reset to 0. -/
def initRun (total : ℕ) : UIState :=
  { table := [], global_total := total, global_done := 0, globalPct := 0, console := [] }

/-- Fold a sequence of `finished_video` (Completed) events into the state. -/
def runCompleted (ui : UIState) (evs : List (String × Bool × String)) : UIState :=
  evs.foldl (fun s e => on_finished_video s e.1 e.2.1 e.2.2) ui

/-! ## The concurrency gate (`on_download_selected`, source lines 373–390)

```python
semaphore = threading.Semaphore(self.max_concurrent)
def worker_launcher(entry_tuple):
    ...
    semaphore.acquire()
    worker = DownloadWorker(...)
    worker.start()
    def monitor():
        worker.join()
        semaphore.release()
    ...
```

Per task the observable lifecycle is: queued → (acquire, start) active →
(run ends) finished → (monitor's release) released.  `Semaphore.acquire`
blocks until the counter is positive, then decrements; `release`
increments.  The interleaving of the launcher/monitor threads is modelled
as a labelled transition system over this per-task phase vector plus the
semaphore counter. -/

inductive Phase where
  | queuedP
  | activeP
  | finishedP
  | releasedP
deriving DecidableEq

structure SemState where
  permits : ℕ
  tasks : List Phase
deriving DecidableEq

inductive SemLabel where
  | acquireL (i : ℕ)
  | finishL (i : ℕ)
  | releaseL (i : ℕ)

/-- One interleaved scheduler step.  `acquireL i` is launcher thread `i`
returning from `semaphore.acquire()` and starting its worker (the task
becomes active); `finishL i` is worker `i`'s `run` terminating; `releaseL i`
is monitor thread `i` returning from `join` and calling
`semaphore.release()`. -/
inductive SemStep : SemLabel → SemState → SemState → Prop
  | acquire (s : SemState) (i : ℕ) :
      s.tasks[i]? = some .queuedP → 0 < s.permits →
      SemStep (.acquireL i) s ⟨s.permits - 1, s.tasks.set i .activeP⟩
  | finish (s : SemState) (i : ℕ) :
      s.tasks[i]? = some .activeP →
      SemStep (.finishL i) s ⟨s.permits, s.tasks.set i .finishedP⟩
  | release (s : SemState) (i : ℕ) :
      s.tasks[i]? = some .finishedP →
      SemStep (.releaseL i) s ⟨s.permits + 1, s.tasks.set i .releasedP⟩

/-- Initial state of a run: the semaphore holds `K = max_concurrent`
permits and all `M` tasks are queued. -/
def semInit (K M : ℕ) : SemState := ⟨K, List.replicate M .queuedP⟩

/-- States reachable in a run with concurrency bound `K` and `M` tasks. -/
inductive SemReachable (K M : ℕ) : SemState → Prop
  | init : SemReachable K M (semInit K M)
  | step {s s' : SemState} (l : SemLabel) :
      SemReachable K M s → SemStep l s s' → SemReachable K M s'

/-- Number of tasks in a given phase. -/
def countPhase (s : SemState) (p : Phase) : ℕ :=
  s.tasks.countP (fun q => q == p)

/-- Number of simultaneously active DownloadTasks (started, not yet
finished). -/
def activeCount (s : SemState) : ℕ := countPhase s .activeP

/-- The semaphore invariant: permits plus active tasks plus
finished-but-not-yet-released tasks equal the bound `K`. -/
def semInv (K : ℕ) (s : SemState) : Prop :=
  s.permits + countPhase s .activeP + countPhase s .finishedP = K

/-! ## Option dictionaries and worker-local copies (C10)

`on_download_selected` builds one shared `ydl_base_opts` dict;
`DownloadWorker.__init__` stores `self.opts = opts.copy()` and
`DownloadWorker.run` works on `ydl_opts = self.opts.copy()`, mutating only
that copy.  Python dicts are mutable heap objects, so the model uses an
explicit heap of dictionaries addressed by reference; `dict.copy()`
allocates a fresh cell.  The values occurring in these dicts are strings,
bools and the progress-hook list (only its length is relevant). -/

inductive OptVal where
  | str (s : String)
  | bool (b : Bool)
  | hooks (n : ℕ)
deriving DecidableEq

abbrev Dict := List (String × OptVal)

def dictGet (d : Dict) (k : String) : Option OptVal :=
  (d.find? (fun e => e.1 = k)).map (·.2)

/-- `d[k] = v`: overwrite in place, or append a fresh key (Python dicts
keep insertion order). -/
def dictSet : Dict → String → OptVal → Dict
  | [], k, v => [(k, v)]
  | e :: rest, k, v =>
      if e.1 = k then (k, v) :: rest else e :: dictSet rest k v

/-- `d.setdefault(k, v)`. -/
def dictSetdefault (d : Dict) (k : String) (v : OptVal) : Dict :=
  if (dictGet d k).isSome then d else dictSet d k v

/-- A heap of dictionary objects; a reference is an index into `cells`. -/
structure Heap where
  cells : List Dict
deriving DecidableEq

abbrev Ref := ℕ

def Heap.read (h : Heap) (r : Ref) : Dict := h.cells.getD r []

def Heap.write (h : Heap) (r : Ref) (d : Dict) : Heap := ⟨h.cells.set r d⟩

/-- Allocate a fresh dictionary object; returns the new heap and the
fresh reference. -/
def Heap.alloc (h : Heap) (d : Dict) : Heap × Ref :=
  (⟨h.cells ++ [d]⟩, h.cells.length)

/-- `dict.copy()`: allocate a fresh object with the same contents. -/
def copyDict (h : Heap) (r : Ref) : Heap × Ref := h.alloc (h.read r)

/-- `DownloadWorker.__init__` (source lines 124–131): `self.opts =
opts.copy()`; returns the reference the worker retains. -/
def workerInitH (h : Heap) (baseRef : Ref) : Heap × Ref := copyDict h baseRef

def defaultTpl : String := "%(playlist_index)03d - %(title)s.%(ext)s"

/-- `os.path.join` for the separator-free paths this program builds
(modelled with `/` as separator). -/
def pyPathJoin (a b : String) : String :=
  if b.startsWith "/" then b
  else if a = "" then b
  else if a.endsWith "/" then a ++ b
  else a ++ "/" ++ b

/-- The option-building prologue of `DownloadWorker.run` (source lines
169–176):

```python
ydl_opts = self.opts.copy()
tpl = ydl_opts.get('outtmpl') or "%(playlist_index)03d - %(title)s.%(ext)s"
ydl_opts['outtmpl'] = os.path.join(self.out_dir, tpl)
if self.archive_path:
    ydl_opts['download_archive'] = self.archive_path
ydl_opts['progress_hooks'] = [progress_hook]
ydl_opts.setdefault('quiet', True)
ydl_opts.setdefault('no_warnings', True)
```

A falsy (absent/empty) `outtmpl` falls back to the default template; in
this program the value is always a string when present. -/
def buildYdlOptsH (h : Heap) (selfRef : Ref) (out_dir : String)
    (archive : Option String) : Heap × Ref :=
  let hr := copyDict h selfRef
  let h1 := hr.1
  let r := hr.2
  let tpl := match dictGet (h1.read r) "outtmpl" with
    | some (.str s) => if s = "" then defaultTpl else s
    | _ => defaultTpl
  let h2 := h1.write r (dictSet (h1.read r) "outtmpl" (.str (pyPathJoin out_dir tpl)))
  let h3 := match archive with
    | some a => h2.write r (dictSet (h2.read r) "download_archive" (.str a))
    | none => h2
  let h4 := h3.write r (dictSet (h3.read r) "progress_hooks" (.hooks 1))
  let h5 := h4.write r (dictSetdefault (h4.read r) "quiet" (.bool true))
  let h6 := h5.write r (dictSetdefault (h5.read r) "no_warnings" (.bool true))
  (h6, r)

/-- The same option construction as a pure function of the worker's own
dictionary contents — what the fresh `ydl_opts` object holds at the end of
the prologue. -/
def buildYdlOptsPure (d : Dict) (out_dir : String) (archive : Option String) : Dict :=
  let tpl := match dictGet d "outtmpl" with
    | some (.str s) => if s = "" then defaultTpl else s
    | _ => defaultTpl
  let d1 := dictSet d "outtmpl" (.str (pyPathJoin out_dir tpl))
  let d2 := match archive with
    | some a => dictSet d1 "download_archive" (.str a)
    | none => d1
  let d3 := dictSet d2 "progress_hooks" (.hooks 1)
  let d4 := dictSetdefault d3 "quiet" (.bool true)
  dictSetdefault d4 "no_warnings" (.bool true)

/-! ## Concrete instances used in witnesses and counterexamples -/

/-- A `downloading` callback carrying a structured percent `v`. -/
def hookWithPercent (v : ℚ) : HookDict :=
  { status := "downloading", percent := .val v, percentStr := .absent,
    downloaded_bytes := none, total_bytes := none, total_bytes_estimate := none,
    speed := none }

/-- A `downloading` callback with no percent information at all. -/
def hookNoPercent : HookDict :=
  { status := "downloading", percent := .absent, percentStr := .absent,
    downloaded_bytes := none, total_bytes := none, total_bytes_estimate := none,
    speed := none }

/-- A `downloading` callback whose `_percent_str` fails `float(...)`. -/
def hookUnparsable : HookDict :=
  { status := "downloading", percent := .absent, percentStr := .unparsable,
    downloaded_bytes := none, total_bytes := none, total_bytes_estimate := none,
    speed := none }

/-- A registered widget for item `"a"`. -/
def demoWidget : Widget := { video_id := "a", progressValue := 0, statusText := "Queued" }

/-- A presentation state with one registered item `"a"`, `total = 3` and
no completions yet. -/
def demoUI : UIState :=
  { table := [("a", demoWidget)], global_total := 3, global_done := 0,
    globalPct := 0, console := [] }

/-- The `ydl_base_opts` dictionary of `on_download_selected` (source lines
360–367) for quality `"best"`. -/
def demoBase : Dict :=
  [("format", .str "best"), ("merge_output_format", .str "mp4"),
   ("outtmpl", .str defaultTpl), ("noplaylist", .bool true),
   ("quiet", .bool true), ("no_warnings", .bool true)]

/-- A heap holding just the shared base options dictionary. -/
def demoHeap : Heap := ⟨[demoBase]⟩

/-! ## Helper lemmas -/

/-- `intToQ` is the integer cast. -/
theorem intToQ_eq (n : ℤ) : intToQ n = (n : ℚ) := Rat.divInt_one n

/-- `natToQ` is the natural cast. -/
theorem natToQ_eq (n : ℕ) : natToQ n = (n : ℚ) := by
  rw [natToQ, Rat.divInt_one]; simp

/-- `qMul` is rational multiplication. -/
theorem qMul_eq (a b : ℚ) : qMul a b = a * b := by
  rw [qMul]
  push_cast
  rw [← Rat.divInt_mul_divInt', Rat.num_divInt_den, Rat.num_divInt_den]

/-- `qSub` is rational subtraction. -/
theorem qSub_eq (a b : ℚ) : qSub a b = a - b := by
  rw [qSub]
  push_cast
  rw [← Rat.divInt_sub_divInt _ _ (Int.natCast_ne_zero.mpr a.den_ne_zero)
        (Int.natCast_ne_zero.mpr b.den_ne_zero),
      Rat.num_divInt_den, Rat.num_divInt_den]

/-- `qDiv` is rational division. -/
theorem qDiv_eq (a b : ℚ) : qDiv a b = a / b := (Rat.div_def' a b).symm

/-- The head of `dropWhile p l`, when it exists, fails `p`. -/
theorem head?_dropWhile_false (p : α → Bool) (l : List α) :
    ∀ a, (l.dropWhile p).head? = some a → p a = false := by
  induction l with
  | nil => intro a h; simp [List.dropWhile] at h
  | cons x xs ih =>
      intro a h
      by_cases hx : p x
      · exact ih a (by simpa [List.dropWhile, hx] using h)
      · have hxa : x = a := by simpa [List.dropWhile, hx] using h
        subst hxa
        exact Bool.eq_false_iff.mpr hx

/-! ## C6: quality-to-format mapping -/

/-- C6: the quality-to-format mapping sends `"best"` to `"best"`,
`"bestvideo+bestaudio"` to `"bestvideo+bestaudio/best"`, `"audio"` to
`"bestaudio"`, every numeric string `N` (in particular `"720"`) to
`"bestvideo[height<=N]+bestaudio/best[height<=N]"`, and every other input
to `"best"`. -/
theorem C6_quality_mapping :
    quality_to_format "best" = "best" ∧
    quality_to_format "bestvideo+bestaudio" = "bestvideo+bestaudio/best" ∧
    quality_to_format "audio" = "bestaudio" ∧
    quality_to_format "720" = "bestvideo[height<=720]+bestaudio/best[height<=720]" ∧
    (∀ q : String, pyIsDigit q = true →
      quality_to_format q = "bestvideo[height<=" ++ q ++ "]+bestaudio/best[height<=" ++ q ++ "]") ∧
    (∀ q : String, q ≠ "best" → q ≠ "bestvideo+bestaudio" → q ≠ "audio" →
      pyIsDigit q = false → quality_to_format q = "best") := by
  refine ⟨rfl, rfl, rfl, by decide, ?_, ?_⟩
  · intro q hq
    have h1 : q ≠ "best" := by rintro rfl; exact absurd hq (by decide)
    have h2 : q ≠ "bestvideo+bestaudio" := by rintro rfl; exact absurd hq (by decide)
    have h3 : q ≠ "audio" := by rintro rfl; exact absurd hq (by decide)
    simp [quality_to_format, h1, h2, h3, hq]
  · intro q h1 h2 h3 h4
    simp [quality_to_format, h1, h2, h3, h4]

/-- Witness for C6 at the concrete inputs `"720"` and `"unknown-token"`. -/
theorem C6_quality_mapping_witness :
    quality_to_format "720" = "bestvideo[height<=720]+bestaudio/best[height<=720]" ∧
    quality_to_format "unknown-token" = "best" :=
  ⟨C6_quality_mapping.2.2.2.2.1 "720" (by decide),
   C6_quality_mapping.2.2.2.2.2 "unknown-token" (by decide) (by decide) (by decide) (by decide)⟩

/-! ## C7: byte-count formatting -/

/-- C7: `_fmt_bytes` scales by 1024-based thresholds with suffixes
B/KB/MB/GB, printing no decimals below 1KB and one decimal place at or
above; in particular `512 ↦ "512B"`, `2048 ↦ "2.0KB"`,
`5·1024² ↦ "5.0MB"`, `3·1024³ ↦ "3.0GB"`. -/
theorem C7_fmt_bytes :
    fmt_bytes (natToQ 512) = "512B" ∧
    fmt_bytes (natToQ 2048) = "2.0KB" ∧
    fmt_bytes (natToQ (5 * 1024 * 1024)) = "5.0MB" ∧
    fmt_bytes (natToQ (3 * 1024 * 1024 * 1024)) = "3.0GB" ∧
    (∀ b : ℚ, b < 1024 → fmt_bytes b = fmtFixed0 b ++ "B") ∧
    (∀ b : ℚ, 1024 ≤ b → b < 1024 ^ 2 → fmt_bytes b = fmtFixed1 (b / 1024) ++ "KB") ∧
    (∀ b : ℚ, 1024 ^ 2 ≤ b → b < 1024 ^ 3 → fmt_bytes b = fmtFixed1 (b / 1024 ^ 2) ++ "MB") ∧
    (∀ b : ℚ, 1024 ^ 3 ≤ b → fmt_bytes b = fmtFixed1 (b / 1024 ^ 3) ++ "GB") := by
  have e2 : ((1024 : ℚ) ^ 2) = 1048576 := by norm_num
  have e3 : ((1024 : ℚ) ^ 3) = 1073741824 := by norm_num
  refine ⟨by decide, by decide, by decide, by decide, ?_, ?_, ?_, ?_⟩
  · intro b hb; simp [fmt_bytes, hb]
  · intro b hb1 hb2
    rw [e2] at hb2
    rw [fmt_bytes, if_neg (not_lt.mpr hb1), if_pos hb2, qDiv_eq]
  · intro b hb1 hb2
    rw [e2] at hb1; rw [e3] at hb2
    rw [fmt_bytes, if_neg (not_lt.mpr (le_trans (by norm_num) hb1)),
      if_neg (not_lt.mpr hb1), if_pos hb2, qDiv_eq, e2]
  · intro b hb
    rw [e3] at hb
    rw [fmt_bytes, if_neg (not_lt.mpr (le_trans (by norm_num) hb)),
      if_neg (not_lt.mpr (le_trans (by norm_num) hb)),
      if_neg (not_lt.mpr hb), qDiv_eq, e3]

/-- Witness for C7 on each threshold branch. -/
theorem C7_fmt_bytes_witness :
    fmt_bytes (natToQ 512) = fmtFixed0 (natToQ 512) ++ "B" ∧
    fmt_bytes (natToQ 2048) = fmtFixed1 (natToQ 2048 / 1024) ++ "KB" ∧
    fmt_bytes (natToQ 5242880) = fmtFixed1 (natToQ 5242880 / 1024 ^ 2) ++ "MB" ∧
    fmt_bytes (natToQ 3221225472) = fmtFixed1 (natToQ 3221225472 / 1024 ^ 3) ++ "GB" :=
  ⟨C7_fmt_bytes.2.2.2.2.1 (natToQ 512) (by rw [natToQ_eq]; norm_num),
   C7_fmt_bytes.2.2.2.2.2.1 (natToQ 2048) (by rw [natToQ_eq]; norm_num)
     (by rw [natToQ_eq]; norm_num),
   C7_fmt_bytes.2.2.2.2.2.2.1 (natToQ 5242880) (by rw [natToQ_eq]; norm_num)
     (by rw [natToQ_eq]; norm_num),
   C7_fmt_bytes.2.2.2.2.2.2.2 (natToQ 3221225472) (by rw [natToQ_eq]; norm_num)⟩

/-! ## C8: filename sanitization -/

/-- C8: the filename sanitizer keeps exactly the alphanumerics, spaces,
`.`, `_`, `-`, drops every other character, and trims trailing whitespace;
in particular `"My: Playlist / 2024!"` sanitizes to `"My Playlist  2024"`. -/
theorem C8_safe_filename :
    safe_filename "My: Playlist / 2024!" = "My Playlist  2024" ∧
    (∀ s : String, ∀ c ∈ (safe_filename s).toList, keepChar c = true) ∧
    (∀ s : String, ∃ t : List Char,
      s.toList.filter keepChar = (safe_filename s).toList ++ t ∧
      ∀ c ∈ t, pyIsSpace c = true) ∧
    (∀ s : String, pyIsSpace ((safe_filename s).toList.getLastD '.') = false) := by
  refine ⟨by decide, ?_, ?_, ?_⟩
  · intro s c hc
    have h1 : c ∈ (s.toList.filter keepChar).reverse.dropWhile pyIsSpace := by
      simpa [safe_filename, pyRstrip] using hc
    have h2 : c ∈ s.toList.filter keepChar :=
      List.mem_reverse.mp ((List.dropWhile_sublist pyIsSpace).mem h1)
    exact List.of_mem_filter h2
  · intro s
    refine ⟨((s.toList.filter keepChar).reverse.takeWhile pyIsSpace).reverse, ?_, ?_⟩
    · have hsplit : (s.toList.filter keepChar).reverse =
          (s.toList.filter keepChar).reverse.takeWhile pyIsSpace ++
            (s.toList.filter keepChar).reverse.dropWhile pyIsSpace :=
        (List.takeWhile_append_dropWhile (p := pyIsSpace)
          (l := (s.toList.filter keepChar).reverse)).symm
      calc s.toList.filter keepChar
          = (s.toList.filter keepChar).reverse.reverse := (List.reverse_reverse _).symm
        _ = ((s.toList.filter keepChar).reverse.takeWhile pyIsSpace ++
              (s.toList.filter keepChar).reverse.dropWhile pyIsSpace).reverse := by
            rw [← hsplit]
        _ = ((s.toList.filter keepChar).reverse.dropWhile pyIsSpace).reverse ++
              ((s.toList.filter keepChar).reverse.takeWhile pyIsSpace).reverse := by
            rw [List.reverse_append]
        _ = (safe_filename s).toList ++
              ((s.toList.filter keepChar).reverse.takeWhile pyIsSpace).reverse := rfl
    · intro c hc
      exact List.mem_takeWhile_imp (List.mem_reverse.mp hc)
  · intro s
    have hlast : (safe_filename s).toList.getLastD '.' =
        (((s.toList.filter keepChar).reverse.dropWhile pyIsSpace).head?).getD '.' := by
      show (((s.toList.filter keepChar).reverse.dropWhile pyIsSpace).reverse).getLastD '.' = _
      rw [List.getLastD_eq_getLast?, List.getLast?_reverse]
    rw [hlast]
    cases hh : ((s.toList.filter keepChar).reverse.dropWhile pyIsSpace).head? with
    | none => decide
    | some a => simpa using head?_dropWhile_false pyIsSpace _ a hh

/-- Witness for C8 at the concrete inputs of the claim. -/
theorem C8_safe_filename_witness :
    keepChar 'M' = true ∧
    pyIsSpace ((safe_filename "a ").toList.getLastD '.') = false :=
  ⟨C8_safe_filename.2.1 "My: Playlist / 2024!" 'M' (by decide),
   C8_safe_filename.2.2.2 "a "⟩

/-! ## C1: percent normalization -/

/-- C1 (counterexample): a `downloading` callback with structured percent
`150` is emitted as `150`, outside `[0, 100]` — the hook never clamps. -/
theorem C1_counterexample :
    progressPercents (progress_hook "v1" (hookWithPercent 150)) = [150] ∧
    ¬ (∀ p ∈ progressPercents (progress_hook "v1" (hookWithPercent 150)),
        0 ≤ p ∧ p ≤ 100) := by
  refine ⟨by decide, ?_⟩
  intro h
  exact absurd (h 150 (by decide)).2 (by decide)

/-- C1 (amended): every `downloading` callback yields exactly one Progress
event whose percent is the normalized value (structured percent if present
and parsable, else the parsed textual percent, else exactly `0.0` — never
undefined); the emitted percent lies in `[0, 100]` whenever the supplied
value does, but an out-of-range supplied value is passed through
unclamped. -/
theorem C1_percent_normalization (vid : String) (d : HookDict)
    (hs : d.status = "downloading") :
    progressPercents (progress_hook vid d) = [pDisplay d] ∧
    ((d.percent = PField.absent ∨ d.percent = PField.unparsable) →
      (d.percentStr = PField.absent ∨ d.percentStr = PField.unparsable) →
      pDisplay d = 0) ∧
    (∀ v : ℚ, 0 ≤ v → v ≤ 100 →
      (d.percent = PField.val v ∨ (d.percent = PField.absent ∧ d.percentStr = PField.val v)) →
      0 ≤ pDisplay d ∧ pDisplay d ≤ 100) := by
  refine ⟨?_, ?_, ?_⟩
  · simp [progress_hook, hs, progressPercents]
  · rintro (h1 | h1) (h2 | h2) <;> simp [pDisplay, h1, h2]
  · rintro v hv0 hv1 (hv | ⟨ha, hv⟩)
    · rw [pDisplay, hv]; exact ⟨hv0, hv1⟩
    · rw [pDisplay, ha, hv]; exact ⟨hv0, hv1⟩

/-- Witness for C1 at a callback with no parsable percent: the emitted
percent is exactly `0.0`. -/
theorem C1_percent_normalization_witness :
    progressPercents (progress_hook "v1" hookUnparsable) = [0] := by
  have h := C1_percent_normalization "v1" hookUnparsable rfl
  rw [h.1, h.2.1 (Or.inl rfl) (Or.inr rfl)]

/-! ## C5: per-item percent monotonicity -/

/-- C5 (counterexample): after a callback at 50%, a callback with no
percent information emits `0.0`, so the emitted sequence `[50, 0]` is not
monotonically non-decreasing. -/
theorem C5_counterexample :
    progressPercents ([hookWithPercent 50, hookNoPercent].flatMap (progress_hook "v1"))
      = [50, 0] ∧
    ¬ List.Chain' (· ≤ ·)
      (progressPercents ([hookWithPercent 50, hookNoPercent].flatMap (progress_hook "v1"))) := by
  refine ⟨by decide, ?_⟩
  intro h
  rw [show progressPercents ([hookWithPercent 50, hookNoPercent].flatMap (progress_hook "v1"))
      = [50, 0] from by decide] at h
  exact absurd (List.chain'_cons.mp h).1 (by norm_num)

/-- The Progress percents emitted for a sequence of `downloading`
callbacks are exactly their normalized percents, in order. -/
theorem progressPercents_flatMap (vid : String) (ds : List HookDict)
    (hstat : ∀ d ∈ ds, d.status = "downloading") :
    progressPercents (ds.flatMap (progress_hook vid)) = ds.map pDisplay := by
  induction ds with
  | nil => rfl
  | cons d rest ih =>
      rw [List.flatMap_cons, List.map_cons]
      simp only [progressPercents, List.filterMap_append]
      have hd : d.status = "downloading" := hstat d (List.mem_cons_self d rest)
      have h1 : (progress_hook vid d).filterMap
          (fun ev => match ev with | .progress _ p _ _ _ => some p | _ => none)
          = [pDisplay d] := by
        simp [progress_hook, hd]
      rw [h1]
      have h2 := ih (fun d' hd' => hstat d' (List.mem_cons_of_mem d hd'))
      simp only [progressPercents] at h2
      rw [h2]
      rfl

/-- C5 (amended): the percents a DownloadTask emits for a sequence of
`downloading` callbacks are exactly the normalized input percents, so they
are monotonically non-decreasing whenever the normalized inputs are; a
missing/unparsable percent mid-stream normalizes to `0.0` and breaks
monotonicity (see the counterexample). -/
theorem C5_monotonic_amended (vid : String) (ds : List HookDict)
    (hstat : ∀ d ∈ ds, d.status = "downloading")
    (hmono : List.Chain' (· ≤ ·) (ds.map pDisplay)) :
    progressPercents (ds.flatMap (progress_hook vid)) = ds.map pDisplay ∧
    List.Chain' (· ≤ ·) (progressPercents (ds.flatMap (progress_hook vid))) := by
  have key := progressPercents_flatMap vid ds hstat
  exact ⟨key, key ▸ hmono⟩

/-- Witness for C5 on the non-decreasing input sequence `[10, 50]`. -/
theorem C5_monotonic_amended_witness :
    progressPercents ([hookWithPercent 10, hookWithPercent 50].flatMap (progress_hook "v1"))
      = [hookWithPercent 10, hookWithPercent 50].map pDisplay ∧
    List.Chain' (· ≤ ·)
      (progressPercents ([hookWithPercent 10, hookWithPercent 50].flatMap (progress_hook "v1"))) :=
  C5_monotonic_amended "v1" [hookWithPercent 10, hookWithPercent 50]
    (by decide)
    (by
      rw [show [hookWithPercent 10, hookWithPercent 50].map pDisplay = [10, 50] from by decide]
      exact List.chain'_cons.mpr ⟨by norm_num, List.chain'_singleton 50⟩)

/-! ## C4: error normalization at the bus boundary -/

/-- The progress hook never emits a `finished_video` (Completed) event. -/
theorem countFinished_progress_hook (vid : String) (d : HookDict) :
    countFinished (progress_hook vid d) = 0 := by
  rw [progress_hook]
  split_ifs <;> simp [countFinished]

/-- No Completed event is emitted during the callback phase. -/
theorem countFinished_flatMap (vid : String) (hooks : List HookDict) :
    countFinished (hooks.flatMap (progress_hook vid)) = 0 := by
  induction hooks with
  | nil => rfl
  | cons d rest ih =>
      have h := countFinished_progress_hook vid d
      simp only [countFinished] at h ih ⊢
      rw [List.flatMap_cons, List.countP_append, h, ih]

/-- C4: every `DownloadWorker.run`, whatever the external downloader does,
emits exactly one Completed event; on a raised error it is
`Completed(success=false)` with the error's textual description (`str(e)`)
as message — the raw exception object never crosses the bus — and on
success it is `Completed(success=true, "Done")`. -/
theorem C4_error_normalization :
    (∀ (vid : String) (out : DlOutcome), countFinished (workerRun vid out) = 1) ∧
    (∀ (vid : String) (e : PyErr),
      workerRun vid (.ctorFail e) = [.finished vid false e.str]) ∧
    (∀ (vid : String) (hooks : List HookDict) (e : PyErr),
      (workerRun vid (.dlFail hooks e)).getLast? = some (.finished vid false e.str)) ∧
    (∀ (vid : String) (hooks : List HookDict),
      (workerRun vid (.success hooks)).getLast? = some (.finished vid true "Done")) := by
  refine ⟨?_, fun _ _ => rfl, ?_, ?_⟩
  · intro vid out
    cases out with
    | ctorFail e => simp [workerRun, countFinished]
    | dlFail hooks e =>
        have h := countFinished_flatMap vid hooks
        simp only [countFinished] at h ⊢
        simp [workerRun, List.countP_cons, List.countP_append, h]
    | success hooks =>
        have h := countFinished_flatMap vid hooks
        simp only [countFinished] at h ⊢
        simp [workerRun, List.countP_cons, List.countP_append, h]
  · intro vid hooks e
    rw [workerRun, ← List.cons_append, List.getLast?_concat]
  · intro vid hooks
    rw [workerRun, ← List.cons_append, List.getLast?_concat]

/-! ## C2: done-count and global percent -/

theorem on_finished_video_done (ui : UIState) (vid : String) (b : Bool) (m : String) :
    (on_finished_video ui vid b m).global_done = ui.global_done + 1 := rfl

theorem on_finished_video_total (ui : UIState) (vid : String) (b : Bool) (m : String) :
    (on_finished_video ui vid b m).global_total = ui.global_total := rfl

theorem on_finished_video_pct (ui : UIState) (vid : String) (b : Bool) (m : String) :
    (on_finished_video ui vid b m).globalPct =
      if ui.global_total ≠ 0 then globalPercent (ui.global_done + 1) ui.global_total
      else ui.globalPct := rfl

theorem runCompleted_done (ui : UIState) (evs : List (String × Bool × String)) :
    (runCompleted ui evs).global_done = ui.global_done + evs.length := by
  induction evs generalizing ui with
  | nil => simp [runCompleted]
  | cons e rest ih =>
      have h := ih (on_finished_video ui e.1 e.2.1 e.2.2)
      simp only [runCompleted, List.foldl_cons] at h ⊢
      rw [h, on_finished_video_done, List.length_cons]
      omega

theorem runCompleted_total (ui : UIState) (evs : List (String × Bool × String)) :
    (runCompleted ui evs).global_total = ui.global_total := by
  induction evs generalizing ui with
  | nil => simp [runCompleted]
  | cons e rest ih =>
      have h := ih (on_finished_video ui e.1 e.2.1 e.2.2)
      simp only [runCompleted, List.foldl_cons] at h ⊢
      rw [h, on_finished_video_total]

theorem runCompleted_append (ui : UIState) (a b : List (String × Bool × String)) :
    runCompleted ui (a ++ b) = runCompleted (runCompleted ui a) b := by
  simp [runCompleted, List.foldl_append]

/-- C2 (amended): in a run of `total > 0` items, every Completed event
increments the done-count by exactly 1, so after `k` events the done-count
is `k` and equals `total` exactly once — exactly when the run finishes;
after each Completed event the global percent is
`int(100 * (done / total))` evaluated in IEEE-754 double precision
(`globalPercent`), which can fall one short of `⌊100·done/total⌋` (see the
counterexample). -/
theorem C2_done_count_and_percent (total : ℕ) (htotal : 0 < total)
    (evs : List (String × Bool × String)) (hlen : evs.length = total) :
    (∀ (ui : UIState) (vid : String) (b : Bool) (m : String),
      (on_finished_video ui vid b m).global_done = ui.global_done + 1) ∧
    (∀ k, k ≤ total → (runCompleted (initRun total) (evs.take k)).global_done = k) ∧
    (∀ k, k ≤ total →
      ((runCompleted (initRun total) (evs.take k)).global_done = total ↔ k = total)) ∧
    (∀ k, 0 < k → k ≤ total →
      (runCompleted (initRun total) (evs.take k)).globalPct = globalPercent k total) := by
  have hdone : ∀ k, k ≤ total → (runCompleted (initRun total) (evs.take k)).global_done = k := by
    intro k hk
    rw [runCompleted_done, List.length_take]
    simp [initRun]
    omega
  refine ⟨fun _ _ _ _ => rfl, hdone, ?_, ?_⟩
  · intro k hk
    rw [hdone k hk]
  · intro k hk0 hk
    obtain ⟨j, rfl⟩ : ∃ j, k = j + 1 := ⟨k - 1, by omega⟩
    have hj : j < evs.length := by omega
    rw [List.take_succ, List.getElem?_eq_getElem hj, Option.toList_some, runCompleted_append]
    have hd : (runCompleted (initRun total) (evs.take j)).global_done = j :=
      hdone j (by omega)
    have ht : (runCompleted (initRun total) (evs.take j)).global_total = total := by
      rw [runCompleted_total]; rfl
    show (on_finished_video _ _ _ _).globalPct = _
    rw [on_finished_video_pct, hd, ht, if_pos (by omega)]

/-- C2 (counterexample): in a run of 50 items, after the 29th Completed
event the code shows 57% although `⌊100·29/50⌋ = 58`: the double-precision
product `100 * (29 / 50)` falls just below 58 and `int` truncates it. -/
theorem C2_counterexample :
    (runCompleted (initRun 50) (List.replicate 29 ("v", true, "ok"))).global_done = 29 ∧
    ⌊(100 * (29 : ℚ) / 50)⌋ = 58 ∧
    (runCompleted (initRun 50) (List.replicate 29 ("v", true, "ok"))).globalPct = 57 ∧
    (runCompleted (initRun 50) (List.replicate 29 ("v", true, "ok"))).globalPct ≠ 58 := by
  refine ⟨by decide, ?_, by decide, by decide⟩
  rw [show (100 * (29 : ℚ) / 50) = ((58 : ℤ) : ℚ) by norm_num]
  exact Int.floor_intCast 58

/-- Witness for C2 on a concrete two-item run. -/
theorem C2_done_count_and_percent_witness :
    (runCompleted (initRun 2) ([("a", true, "Done"), ("b", false, "boom")].take 2)).global_done
      = 2 ∧
    (runCompleted (initRun 2) ([("a", true, "Done"), ("b", false, "boom")].take 2)).globalPct
      = globalPercent 2 2 := by
  have h := C2_done_count_and_percent 2 (by norm_num)
    [("a", true, "Done"), ("b", false, "boom")] rfl
  exact ⟨h.2.1 2 le_rfl, h.2.2.2 2 (by norm_num) le_rfl⟩

/-! ## C9: events for unregistered item ids -/

theorem lookupTable_eq_none {t : WidgetTable} {vid : String}
    (h : notRegistered t vid) : lookupTable t vid = none := by
  rw [lookupTable, List.find?_eq_none.mpr]
  · rfl
  · intro e he
    simpa using (h e he).1

theorem scanTable_eq_none {t : WidgetTable} {vid : String}
    (h : notRegistered t vid) : scanTable t vid = none := by
  rw [scanTable, List.find?_eq_none.mpr]
  · rfl
  · intro e he
    simpa using (h e he).2

theorem updateWidget_not_registered {t : WidgetTable} {vid : String}
    (h : notRegistered t vid) (f : Widget → Widget) : updateWidget t vid f = t := by
  rw [updateWidget, lookupTable_eq_none h, scanTable_eq_none h]
  rfl

/-- C9 (counterexample): a Completed event for an item id that is not
registered in the per-item table is not a no-op on the aggregate state:
the done-count still increments and the global percent still changes. -/
theorem C9_counterexample :
    notRegistered demoUI.table "ghost" ∧
    (on_finished_video demoUI "ghost" true "Done").global_done ≠ demoUI.global_done ∧
    (on_finished_video demoUI "ghost" true "Done").globalPct ≠ demoUI.globalPct := by
  refine ⟨?_, by decide, by decide⟩
  intro e he
  simp only [demoUI, List.mem_singleton] at he
  subst he
  exact ⟨by decide, by decide⟩

/-- C9 (amended): a Progress or Status event whose item id is not
registered in the per-item table is a complete no-op; a Completed event
for an unregistered id leaves the per-item table unchanged but still
increments the done-count (and recomputes the global percent). -/
theorem C9_unregistered (ui : UIState) (vid : String)
    (h : notRegistered ui.table vid) :
    (∀ (p : ℚ) (db tb : ℤ) (st : String), on_update_progress ui vid p db tb st = ui) ∧
    (∀ st : String, on_update_status ui vid st = ui) ∧
    (∀ (b : Bool) (m : String),
      (on_finished_video ui vid b m).table = ui.table ∧
      (on_finished_video ui vid b m).global_done = ui.global_done + 1) := by
  refine ⟨?_, ?_, ?_⟩
  · intro p db tb st
    rw [on_update_progress, updateWidget_not_registered h]
  · intro st
    rw [on_update_status, lookupTable_eq_none h]
    rfl
  · intro b m
    constructor
    · show updateWidget ui.table vid (finishWidget b) = ui.table
      exact updateWidget_not_registered h _
    · rfl

/-- Witness for C9 at the concrete state `demoUI` and the unregistered id
`"ghost"`. -/
theorem C9_unregistered_witness :
    on_update_progress demoUI "ghost" 50 0 (-1) "t" = demoUI ∧
    on_update_status demoUI "ghost" "t" = demoUI ∧
    (on_finished_video demoUI "ghost" true "Done").table = demoUI.table := by
  have hreg : notRegistered demoUI.table "ghost" := by
    intro e he
    simp only [demoUI, List.mem_singleton] at he
    subst he
    exact ⟨by decide, by decide⟩
  have h := C9_unregistered demoUI "ghost" hreg
  exact ⟨h.1 50 0 (-1) "t", h.2.1 "t", (h.2.2 true "Done").1⟩

/-! ## C3: concurrency bound -/

/-- Replacing the element at a valid index shifts `countP` by the
predicate values of the old and new elements. -/
theorem countP_set_add (l : List Phase) (i : ℕ) (a b : Phase) (p : Phase → Bool)
    (h : l[i]? = some a) :
    (l.set i b).countP p + (if p a then 1 else 0)
      = l.countP p + (if p b then 1 else 0) := by
  induction l generalizing i with
  | nil => simp at h
  | cons x xs ih =>
      cases i with
      | zero =>
          have hxa : x = a := by simpa using h
          subst hxa
          simp only [List.set_cons_zero, List.countP_cons]
          cases hpa : p x <;> cases hpb : p b <;> simp [hpa, hpb]
      | succ n =>
          have h' : xs[n]? = some a := by simpa using h
          have := ih n h'
          simp only [List.set_cons_succ, List.countP_cons]
          cases hpa : p a <;> cases hpb : p b <;> cases hpx : p x <;>
            simp [hpa, hpb, hpx] at this ⊢ <;> omega

theorem countP_replicate_phase (p : Phase → Bool) (x : Phase) (M : ℕ) :
    (List.replicate M x).countP p = if p x then M else 0 := by
  induction M with
  | zero => simp
  | succ n ih =>
      rw [List.replicate_succ, List.countP_cons, ih]
      cases hp : p x <;> simp [hp]

theorem semInv_init (K M : ℕ) : semInv K (semInit K M) := by
  simp [semInv, semInit, countPhase, countP_replicate_phase]

theorem semInv_step {K : ℕ} {l : SemLabel} {s s' : SemState}
    (hstep : SemStep l s s') (hinv : semInv K s) : semInv K s' := by
  cases hstep with
  | acquire s i hq hp =>
      have hA : (s.tasks.set i Phase.activeP).countP (fun q => q == Phase.activeP)
          = s.tasks.countP (fun q => q == Phase.activeP) + 1 := by
        have := countP_set_add s.tasks i .queuedP .activeP (fun q => q == Phase.activeP) hq
        simpa using this
      have hF : (s.tasks.set i Phase.activeP).countP (fun q => q == Phase.finishedP)
          = s.tasks.countP (fun q => q == Phase.finishedP) := by
        have := countP_set_add s.tasks i .queuedP .activeP (fun q => q == Phase.finishedP) hq
        simpa using this
      simp only [semInv, countPhase] at hinv ⊢
      rw [hA, hF]
      omega
  | finish s i ha =>
      have hA : (s.tasks.set i Phase.finishedP).countP (fun q => q == Phase.activeP) + 1
          = s.tasks.countP (fun q => q == Phase.activeP) := by
        have := countP_set_add s.tasks i .activeP .finishedP (fun q => q == Phase.activeP) ha
        simpa using this
      have hF : (s.tasks.set i Phase.finishedP).countP (fun q => q == Phase.finishedP)
          = s.tasks.countP (fun q => q == Phase.finishedP) + 1 := by
        have := countP_set_add s.tasks i .activeP .finishedP (fun q => q == Phase.finishedP) ha
        simpa using this
      simp only [semInv, countPhase] at hinv ⊢
      omega
  | release s i hf =>
      have hA : (s.tasks.set i Phase.releasedP).countP (fun q => q == Phase.activeP)
          = s.tasks.countP (fun q => q == Phase.activeP) := by
        have := countP_set_add s.tasks i .finishedP .releasedP (fun q => q == Phase.activeP) hf
        simpa using this
      have hF : (s.tasks.set i Phase.releasedP).countP (fun q => q == Phase.finishedP) + 1
          = s.tasks.countP (fun q => q == Phase.finishedP) := by
        have := countP_set_add s.tasks i .finishedP .releasedP (fun q => q == Phase.finishedP) hf
        simpa using this
      simp only [semInv, countPhase] at hinv ⊢
      omega

theorem semInv_reachable {K M : ℕ} {s : SemState} (h : SemReachable K M s) :
    semInv K s := by
  induction h with
  | init => exact semInv_init K M
  | step l hr hstep ih => exact semInv_step hstep ih

/-- C3: in every reachable state of a run with bound `K = max_concurrent`,
at most `K` DownloadTasks are active simultaneously, and an acquire step —
the admission of a further task — is only possible while strictly fewer
than `K` are active, keeping the bound after the admission as well. -/
theorem C3_concurrency_bound (K M : ℕ) (s : SemState) (h : SemReachable K M s) :
    activeCount s ≤ K ∧
    (∀ (i : ℕ) (s' : SemState), SemStep (SemLabel.acquireL i) s s' →
      activeCount s < K ∧ activeCount s' ≤ K) := by
  have hinv := semInv_reachable h
  simp only [semInv] at hinv
  constructor
  · simp only [activeCount]
    omega
  · intro i s' hstep
    cases hstep with
    | acquire _ _ hq hp =>
        have hA : (s.tasks.set i Phase.activeP).countP (fun q => q == Phase.activeP)
            = s.tasks.countP (fun q => q == Phase.activeP) + 1 := by
          have := countP_set_add s.tasks i .queuedP .activeP (fun q => q == Phase.activeP) hq
          simpa using this
        constructor
        · simp only [activeCount, countPhase] at *
          omega
        · simp only [activeCount, countPhase] at *
          rw [hA]
          omega

/-- Witness for C3: with `K = 1` and `M = 2` tasks, the initial state and
the state after the first admission both satisfy the bound. -/
theorem C3_concurrency_bound_witness :
    activeCount (semInit 1 2) ≤ 1 ∧
    activeCount ⟨0, [Phase.activeP, Phase.queuedP]⟩ ≤ 1 := by
  have h := C3_concurrency_bound 1 2 (semInit 1 2) SemReachable.init
  have hstep : SemStep (SemLabel.acquireL 0) (semInit 1 2)
      ⟨0, [Phase.activeP, Phase.queuedP]⟩ :=
    SemStep.acquire (semInit 1 2) 0 (by decide) (by decide)
  exact ⟨h.1, (h.2 0 _ hstep).2⟩

/-! ## C10: per-worker option-dictionary isolation -/

theorem Heap.read_alloc_lt (h : Heap) (d : Dict) {r : Ref} (hr : r < h.cells.length) :
    ((h.alloc d).1).read r = h.read r := by
  simp only [Heap.alloc, Heap.read, List.getD_eq_getElem?_getD]
  rw [List.getElem?_append_left hr]

theorem Heap.read_alloc_fresh (h : Heap) (d : Dict) :
    ((h.alloc d).1).read (h.alloc d).2 = d := by
  simp only [Heap.alloc, Heap.read, List.getD_eq_getElem?_getD]
  rw [List.getElem?_concat_length]
  rfl

theorem Heap.read_write_ne (h : Heap) (r : Ref) (d : Dict) {r' : Ref} (hne : r ≠ r') :
    (h.write r d).read r' = h.read r' := by
  simp only [Heap.write, Heap.read, List.getD_eq_getElem?_getD]
  rw [List.getElem?_set_ne hne]

theorem Heap.read_write_self (h : Heap) (r : Ref) (d : Dict) (hr : r < h.cells.length) :
    (h.write r d).read r = d := by
  simp only [Heap.write, Heap.read, List.getD_eq_getElem?_getD]
  rw [List.getElem?_set_self hr]
  rfl

theorem Heap.length_write (h : Heap) (r : Ref) (d : Dict) :
    (h.write r d).cells.length = h.cells.length := by
  simp [Heap.write]

theorem Heap.length_alloc (h : Heap) (d : Dict) :
    ((h.alloc d).1).cells.length = h.cells.length + 1 := by
  simp [Heap.alloc]

/-- `DownloadWorker.__init__` only allocates a fresh copy: every existing
dictionary is untouched. -/
theorem workerInitH_frame (h : Heap) (baseRef : Ref) {r : Ref}
    (hr : r < h.cells.length) :
    ((workerInitH h baseRef).1).read r = h.read r :=
  Heap.read_alloc_lt h _ hr

/-- The option-building prologue of `run` writes only to the fresh
`ydl_opts` object: every pre-existing dictionary — the shared base options
and every sibling worker's copy — is untouched. -/
theorem buildYdl_frame (h : Heap) (selfRef : Ref) (out_dir : String)
    (archive : Option String) {r : Ref} (hr : r < h.cells.length) :
    ((buildYdlOptsH h selfRef out_dir archive).1).read r = h.read r := by
  have hne : h.cells.length ≠ r := Nat.ne_of_gt hr
  cases archive with
  | none =>
      simp only [buildYdlOptsH, copyDict, Heap.alloc]
      rw [Heap.read_write_ne _ _ _ hne, Heap.read_write_ne _ _ _ hne,
        Heap.read_write_ne _ _ _ hne, Heap.read_write_ne _ _ _ hne]
      simp only [Heap.read, List.getD_eq_getElem?_getD]
      rw [List.getElem?_append_left hr]
  | some a =>
      simp only [buildYdlOptsH, copyDict, Heap.alloc]
      rw [Heap.read_write_ne _ _ _ hne, Heap.read_write_ne _ _ _ hne,
        Heap.read_write_ne _ _ _ hne, Heap.read_write_ne _ _ _ hne,
        Heap.read_write_ne _ _ _ hne]
      simp only [Heap.read, List.getD_eq_getElem?_getD]
      rw [List.getElem?_append_left hr]

/-- Writing at a valid reference keeps it valid. -/
theorem write_len_inv (h : Heap) (r : Ref) (d : Dict) (hr : r < h.cells.length) :
    r < (h.write r d).cells.length := by
  rw [Heap.length_write]; exact hr

/-- The heap-level prologue computes, at its fresh reference, exactly the
pure dictionary transformation of the worker's own option contents. -/
theorem buildYdl_result (h : Heap) (selfRef : Ref) (out_dir : String)
    (archive : Option String) :
    ((buildYdlOptsH h selfRef out_dir archive).1).read
        (buildYdlOptsH h selfRef out_dir archive).2
      = buildYdlOptsPure (h.read selfRef) out_dir archive := by
  have c1 : (h.alloc (h.read selfRef)).2 < ((h.alloc (h.read selfRef)).1).cells.length := by
    simp only [Heap.alloc, List.length_append, List.length_cons, List.length_nil]
    simp
  cases archive with
  | none =>
      simp only [buildYdlOptsH, copyDict]
      rw [Heap.read_write_self _ _ _
          (write_len_inv _ _ _ (write_len_inv _ _ _ (write_len_inv _ _ _ c1)))]
      rw [Heap.read_write_self _ _ _ (write_len_inv _ _ _ (write_len_inv _ _ _ c1))]
      rw [Heap.read_write_self _ _ _ (write_len_inv _ _ _ c1)]
      rw [Heap.read_write_self _ _ _ c1]
      simp only [Heap.read_alloc_fresh]
      simp only [buildYdlOptsPure]
  | some a =>
      simp only [buildYdlOptsH, copyDict]
      rw [Heap.read_write_self _ _ _
          (write_len_inv _ _ _ (write_len_inv _ _ _
            (write_len_inv _ _ _ (write_len_inv _ _ _ c1))))]
      rw [Heap.read_write_self _ _ _
          (write_len_inv _ _ _ (write_len_inv _ _ _ (write_len_inv _ _ _ c1)))]
      rw [Heap.read_write_self _ _ _ (write_len_inv _ _ _ (write_len_inv _ _ _ c1))]
      rw [Heap.read_write_self _ _ _ (write_len_inv _ _ _ c1)]
      rw [Heap.read_write_self _ _ _ c1]
      simp only [Heap.read_alloc_fresh]
      simp only [buildYdlOptsPure]

theorem dictGet_dictSet_self (d : Dict) (k : String) (v : OptVal) :
    dictGet (dictSet d k v) k = some v := by
  induction d with
  | nil => simp [dictGet, dictSet]
  | cons e rest ih =>
      by_cases he : e.1 = k
      · simp [dictSet, he, dictGet]
      · simp only [dictSet, if_neg he, dictGet]
        rw [List.find?_cons_of_neg _ (by simpa using he)]
        simpa [dictGet] using ih

theorem dictGet_dictSet_ne (d : Dict) {k' k : String} (hne : k' ≠ k) (v : OptVal) :
    dictGet (dictSet d k' v) k = dictGet d k := by
  induction d with
  | nil =>
      simp only [dictSet, dictGet]
      rw [List.find?_cons_of_neg _ (by simpa using hne)]
  | cons e rest ih =>
      by_cases he : e.1 = k'
      · simp only [dictSet, if_pos he, dictGet]
        by_cases hek : e.1 = k
        · exact absurd (he ▸ hek) hne
        · rw [List.find?_cons_of_neg _ (by simpa using hne),
            List.find?_cons_of_neg _ (by simpa using hek)]
      · simp only [dictSet, if_neg he, dictGet]
        by_cases hek : e.1 = k
        · rw [List.find?_cons_of_pos _ (by simpa using hek),
            List.find?_cons_of_pos _ (by simpa using hek)]
        · rw [List.find?_cons_of_neg _ (by simpa using hek),
            List.find?_cons_of_neg _ (by simpa using hek)]
          simpa [dictGet] using ih

theorem dictGet_setdefault_ne (d : Dict) {k' k : String} (hne : k' ≠ k) (v : OptVal) :
    dictGet (dictSetdefault d k' v) k = dictGet d k := by
  rw [dictSetdefault]
  split_ifs with h
  · rfl
  · exact dictGet_dictSet_ne d hne v

/-- The prologue really does mutate the fresh copy: it installs the
progress hook. -/
theorem buildYdlPure_hooks (d : Dict) (out_dir : String) (archive : Option String) :
    dictGet (buildYdlOptsPure d out_dir archive) "progress_hooks"
      = some (OptVal.hooks 1) := by
  simp only [buildYdlOptsPure]
  rw [dictGet_setdefault_ne _ (by decide), dictGet_setdefault_ne _ (by decide),
    dictGet_dictSet_self]

/-- C10: each DownloadWorker operates on private copies of the shared base
options: `__init__` only allocates a fresh copy, the `run` prologue writes
only to its own fresh `ydl_opts` object (so the coordinator's base dict
and every sibling worker's dict are unchanged), the resulting object is
the pure transformation of the worker's own contents, and that
transformation really performs the per-worker mutations (here: installing
the progress hook). -/
theorem C10_worker_opts_isolation :
    (∀ (h : Heap) (baseRef : Ref) (r : Ref), r < h.cells.length →
      ((workerInitH h baseRef).1).read r = h.read r) ∧
    (∀ (h : Heap) (selfRef : Ref) (out_dir : String) (archive : Option String) (r : Ref),
      r < h.cells.length →
      ((buildYdlOptsH h selfRef out_dir archive).1).read r = h.read r) ∧
    (∀ (h : Heap) (selfRef : Ref) (out_dir : String) (archive : Option String),
      ((buildYdlOptsH h selfRef out_dir archive).1).read
          (buildYdlOptsH h selfRef out_dir archive).2
        = buildYdlOptsPure (h.read selfRef) out_dir archive) ∧
    (∀ (d : Dict) (out_dir : String) (archive : Option String),
      dictGet (buildYdlOptsPure d out_dir archive) "progress_hooks"
        = some (OptVal.hooks 1)) :=
  ⟨fun h baseRef _r hr => workerInitH_frame h baseRef hr,
   fun h selfRef out_dir archive _r hr => buildYdl_frame h selfRef out_dir archive hr,
   fun h selfRef out_dir archive => buildYdl_result h selfRef out_dir archive,
   fun d out_dir archive => buildYdlPure_hooks d out_dir archive⟩

/-- Witness for C10 on a one-dict heap holding the base options. -/
theorem C10_worker_opts_isolation_witness :
    ((workerInitH demoHeap 0).1).read 0 = demoHeap.read 0 ∧
    ((buildYdlOptsH demoHeap 0 "out" (some "arch")).1).read 0 = demoHeap.read 0 := by
  have h := C10_worker_opts_isolation
  exact ⟨h.1 demoHeap 0 0 (by decide), h.2.1 demoHeap 0 "out" (some "arch") 0 (by decide)⟩

end PlaylistDL
